import Mathlib

namespace AutoContinue

/-!
Shallow embedding of the `codex-auto-continue` watcher/supervisor pair
(`src/bin/auto_continue_logwatch.py` and `src/bin/auto_continue_watchd.py`).

Pure string/path manipulation is translated directly.  External effects
(tmux calls, file existence checks, send results, clock reads) are passed
in as explicit inputs; file writes are recorded in the returned state.
-/

/-! ## Supervisor key helpers (`auto_continue_watchd.py`, lines 80-94) -/

/-- One character of the `sanitize_key` substitution: characters outside
`[a-zA-Z0-9._-]` become `_`. -/
def sanitize_char (c : Char) : Char :=
  if c.isAlphanum ∨ c = '.' ∨ c = '_' ∨ c = '-' then c else '_'

/-- `sanitize_key`: replace every character outside `[a-zA-Z0-9._-]` by `_`
(the regex substitution at watchd line 80-81), modelled on the character list
of the string. -/
def sanitize_key (s : List Char) : List Char :=
  s.map sanitize_char

/-- `key_from_pane` (watchd line 84-85): just `sanitize_key`. -/
def key_from_pane (pane : List Char) : List Char :=
  sanitize_key pane

/-- `key_to_pane` (watchd line 88-90): prepend `%` to the key with all leading
underscores stripped (Python `"%" + key.lstrip("_")`). -/
def key_to_pane (key : List Char) : List Char :=
  '%' :: key.dropWhile (fun c => c = '_')

/-- `is_pane_id` (watchd line 93-94): full match of `%[0-9]+`. -/
def is_pane_id (s : List Char) : Bool :=
  match s with
  | c :: rest => c = '%' && rest ≠ [] && rest.all Char.isDigit
  | [] => false

/-! ## `cmd_start` liveness reconciliation (`auto_continue_watchd.py`, lines 865-885)

`cmd_start` first checks `is_running_pid_file(pf)`; only when that is false
does it scan live processes (`watcher_pids_for_pane`).  The inputs below are
the results of those two external observations. -/

/-- Outcome of the liveness-check section of `cmd_start`. -/
inductive StartOutcome where
  /-- PID file names a live process: print `already running`, return (no spawn). -/
  | already_running (pid : String)
  /-- Exactly one live watcher found by the scan: write its pid to the PID
  file, print `already running`, return (no spawn). -/
  | adopted (pid : String)
  /-- More than one live watcher found: print an error plus hint to stderr and
  `sys.exit(1)` (no spawn). -/
  | error_multiple (pids : List String)
  /-- No live watcher: fall through to spawning a fresh watcher process. -/
  | spawn
deriving DecidableEq

/-- The guard logic of `cmd_start` (watchd lines 865-885).
`pid_file_live` is `is_running_pid_file(pf)`; `pid_file_pid` is the pid string
read from the PID file; `existing_pids` is `watcher_pids_for_pane(pane)`. -/
def start_liveness_check (pid_file_live : Bool) (pid_file_pid : String)
    (existing_pids : List String) : StartOutcome :=
  if pid_file_live then
    .already_running pid_file_pid
  else if existing_pids ≠ [] then
    if existing_pids.length = 1 then
      .adopted (existing_pids.headI)
    else
      .error_multiple existing_pids
  else
    .spawn

/-! ## Message meta persistence (`auto_continue_watchd.py`, lines 567-599)

File contents are modelled as `List Char`.  `splitChar sep` is Python's
`str.split(sep)` (keeping empty pieces); `file_lines` is Python's line
iteration over a file (each yielded line `rstrip("\n")`-ed, no empty final
line after a trailing newline).  The reader opens the file in text mode with
`newline=None`, so universal-newline translation (`\r\n` and lone `\r` read
as `\n`) is applied to the content before line iteration. -/

/-- Split a character list at every occurrence of `sep`, keeping empty
pieces; always returns at least one piece. -/
def splitChar (sep : Char) : List Char → List (List Char)
  | [] => [[]]
  | c :: rest =>
    if c = sep then [] :: splitChar sep rest
    else
      match splitChar sep rest with
      | l :: ls => (c :: l) :: ls
      | [] => [[c]]

/-- Python iteration over a file's lines with each line `rstrip("\n")`-ed:
split at newlines and drop the empty piece a trailing newline produces. -/
def file_lines (content : List Char) : List (List Char) :=
  let parts := splitChar '\n' content
  if parts.getLast? = some [] then parts.dropLast else parts

/-- Universal-newline translation performed by a text-mode `open(path)` read
(`newline=None`): `\r\n` and lone `\r` become `\n`.  (The write side,
`open(path, "w")` with `newline=None`, translates `\n` to `os.linesep` — the
identity on POSIX, which is what this model assumes.) -/
def univ_newlines : List Char → List Char
  | [] => []
  | c :: rest =>
    if c = '\r' then
      match rest with
      | '\n' :: rest2 => '\n' :: univ_newlines rest2
      | [] => ['\n']
      | c2 :: rest2 => '\n' :: univ_newlines (c2 :: rest2)
    else
      c :: univ_newlines rest

/-- Python `str.startswith`. -/
def py_startswith (l p : List Char) : Bool :=
  l.take p.length == p

/-- Python `"\n".join(pieces)`. -/
def joinNl : List (List Char) → List Char
  | [] => []
  | [l] => l
  | l :: ls => l ++ '\n' :: joinNl ls

/-- `write_message_meta` (watchd lines 567-571): the file content written,
`mode=<mode>\n` followed by `value=<value>\n`. -/
def write_message_meta (mode value : List Char) : List Char :=
  ("mode=".toList ++ mode) ++ '\n' :: ("value=".toList ++ value ++ ['\n'])

/-- The line loop of `read_message_meta_for_key` (watchd lines 580-590):
threading `mode`, `value_lines` and `in_value` through the lines. -/
def read_meta_lines : List (List Char) → List Char → List (List Char) → Bool →
    List Char × List (List Char)
  | [], mode, vls, _ => (mode, vls)
  | l :: rest, mode, vls, inv =>
    if py_startswith l "mode=".toList then
      read_meta_lines rest (l.drop 5) vls false
    else if py_startswith l "value=".toList then
      read_meta_lines rest mode [l.drop 6] true
    else if inv then
      read_meta_lines rest mode (vls ++ [l]) inv
    else
      read_meta_lines rest mode vls inv

/-- `read_message_meta_for_key` (watchd lines 574-599).  `content` is the raw
file content on disk, `none` when opening raises `OSError`; the text-mode
`open(path)` applies universal-newline translation before line iteration. -/
def read_message_meta (content : Option (List Char)) :
    Option (List Char × List Char) :=
  match content with
  | none => none
  | some c =>
    let mv := read_meta_lines (file_lines (univ_newlines c)) [] [] false
    let value := joinNl mv.2
    let value := if value.getLast? = some '\n' then value.dropLast else value
    if mv.1 = "inline".toList ∨ mv.1 = "file".toList then some (mv.1, value)
    else none

/-! ## Watcher state reading (`auto_continue_logwatch.py`, lines 175-179 and 243-245)

`read_state` wraps `json.loads(path.read_text())` in `try/except Exception`.
The model's input is the outcome of that read-and-parse: `none` when any
exception is raised (missing file, unreadable file, JSON parse failure),
`some j` when the file content parses as the JSON value `j`. -/

/-- JSON values as produced by `json.loads` (numbers collapsed to `Int`). -/
inductive Json where
  | null
  | bool (b : Bool)
  | num (n : Int)
  | str (s : String)
  | arr (elems : List Json)
  | obj (entries : List (String × Json))

/-- `read_state` (logwatch lines 175-179): the parsed JSON value, `{}` on any
exception.  Note there is no check that the parsed value is an object. -/
def read_state (parsed : Option Json) : Json :=
  match parsed with
  | none => .obj []
  | some j => j

/-- Whether a JSON value is a Python dict. -/
def Json.is_dict : Json → Bool
  | .obj _ => true
  | _ => false

/-- Python `dict.get(k, dflt)` on a parsed JSON object (`json.loads` keeps the
last duplicate key, hence the reverse lookup). -/
def jget (entries : List (String × Json)) (k : String) (dflt : Json) : Json :=
  match entries.reverse.find? (fun p => p.1 == k) with
  | some p => p.2
  | none => dflt

mutual
/-- Python `repr` of a JSON value (string escaping inside quotes elided;
the theorems below only evaluate it on strings). -/
def py_repr : Json → String
  | .null => "None"
  | .bool true => "True"
  | .bool false => "False"
  | .num n => toString n
  | .str s => "'" ++ s ++ "'"
  | .arr xs => "[" ++ String.intercalate ", " (py_repr_list xs) ++ "]"
  | .obj es => "\x7b" ++ String.intercalate ", " (py_repr_entries es) ++ "\x7d"

def py_repr_list : List Json → List String
  | [] => []
  | x :: xs => py_repr x :: py_repr_list xs

def py_repr_entries : List (String × Json) → List String
  | [] => []
  | (k, v) :: es => ("'" ++ k ++ "': " ++ py_repr v) :: py_repr_entries es
end

/-- Python `str`: identity on strings, `repr`-like otherwise. -/
def py_str (j : Json) : String :=
  match j with
  | .str s => s
  | _ => py_repr j

/-- The dedup-seed lines (logwatch 243-245):
`last_sent_turn = str(state.get("last_sent_turn", ""))` and
`last_sent_thread = str(state.get("last_sent_thread", state.get("thread_id", "")))`.
Python raises `AttributeError` when `state` is not a dict (e.g. the state
file held a JSON array), so the result is `Except`. -/
def seed_dedup (state : Json) : Except String (String × String) :=
  match state with
  | .obj entries =>
      .ok (py_str (jget entries "last_sent_turn" (.str "")),
           py_str (jget entries "last_sent_thread" (jget entries "thread_id" (.str ""))))
  | _ => .error "AttributeError"

/-! ## The watcher event loop (`auto_continue_logwatch.py`, `main`, lines 336-411)

The per-event body of the poll loop.  Events from both sources are normalized
to `(thread_id, turn_id, needs_follow_up)` tuples before this code runs
(lines 286 and 325: the rollout source always appends flag `"false"`).
External observations made while processing one event — the clock, pause
sentinel existence, pane activity, and the `tmux_send` result — are fields of
`EventEnv`.  Timestamps and durations are modelled as integers standing in
for Python floats: the loop only subtracts and orders them. -/

/-- Python's binary `max` (used as `max(0.0, x)` at lines 346, 381). -/
def py_max (a b : ℤ) : ℤ :=
  if a < b then b else a

/-- The fixed command-line configuration consulted by the loop body. -/
structure Config where
  /-- `args.thread_id == "auto"` (line 247). -/
  auto_mode : Bool
  /-- `args.auto_rebind_idle_secs`. -/
  idle_secs : ℤ
  /-- `args.cooldown_secs`. -/
  cooldown_secs : ℤ
  /-- `args.require_pane_active`. -/
  require_pane_active : Bool
deriving DecidableEq

/-- The in-memory `state` dict.  The loop only ever writes the three keys
below (lines 393-395); any other keys read from the state file sit untouched
in `rest`. -/
structure StateDict where
  last_sent_turn : Option String
  last_sent_thread : Option String
  thread_id : Option String
  rest : List (String × String)
deriving DecidableEq

/-- The watcher's mutable state across loop iterations. -/
structure WatcherSt where
  /-- `watched_thread` (empty string = not yet bound). -/
  watched_thread : String
  /-- `watched_last_event_at`. -/
  watched_last_event_at : ℤ
  /-- local `last_sent_turn` (line 244). -/
  last_sent_turn : String
  /-- local `last_sent_thread` (line 245). -/
  last_sent_thread : String
  /-- `last_send_time` (cooldown timestamp). -/
  last_send_time : ℤ
  /-- whether `rollout_fh` is an open handle (`is not None`). -/
  rollout_fh_open : Bool
  /-- `rollout_path`. -/
  rollout_path : Option String
  /-- `last_rollout_scan`. -/
  last_rollout_scan : ℤ
  /-- the in-memory `state` dict. -/
  dict : StateDict
  /-- content of the on-disk state file (`none` = file absent). -/
  disk : Option StateDict
  /-- whether `write_state` has run `mkdir(parents=True, exist_ok=True)`. -/
  dir_created : Bool
deriving DecidableEq

/-- One normalized event together with the external observations made while
processing it. -/
structure EventEnv where
  thread_id : String
  turn_id : String
  needs_follow_up : String
  /-- `time.time()` re-read at line 337. -/
  tnow : ℤ
  /-- `pause_file.exists()` (line 371). -/
  pause_file : Bool
  /-- `pane_pause_file.exists()` (line 374). -/
  pane_pause_file : Bool
  /-- `tmux_pane_active(args.pane)` (line 377). -/
  pane_active : Bool
  /-- success of `tmux_send` (line 388). -/
  send_ok : Bool
  /-- the diagnostic detail string returned by `tmux_send` on failure. -/
  send_detail : String
deriving DecidableEq

/-- Entries appended to the watch log by the loop body (timestamps and string
formatting elided; each constructor is one `append_log` call site). -/
inductive LogMsg where
  | auto_selected (thread : String)
  | rebind (prev next : String) (idle : ℤ)
  | skip_pause (turn : String)
  | skip_pane_pause (turn : String)
  | skip_inactive (turn : String)
  | skip_cooldown (turn : String)
  | continue_sent (turn thread : String)
  | send_error (turn thread detail : String)
deriving DecidableEq

/-- Where processing of one event exited the loop body. -/
inductive Outcome where
  /-- `continue` at line 364-365 (thread mismatch). -/
  | dropped_thread
  /-- `continue` at line 366-367 (`needs_follow_up != "false"`). -/
  | dropped_flag
  /-- `continue` at line 368-369 (same (turn, thread) as last sent). -/
  | dropped_dedup
  | skipped_pause
  | skipped_pane_pause
  | skipped_inactive
  | skipped_cooldown
  /-- `tmux_send` was called and succeeded. -/
  | sent_ok
  /-- `tmux_send` was called and failed. -/
  | sent_failed
deriving DecidableEq

/-- Whether the outcome involved a `tmux_send` call (a text-injection
attempt). -/
def Outcome.sendAttempted : Outcome → Bool
  | .sent_ok => true
  | .sent_failed => true
  | _ => false

/-- The auto-mode thread (re)binding section (lines 339-362). -/
def auto_update (cfg : Config) (s : WatcherSt) (e : EventEnv) :
    WatcherSt × List LogMsg :=
  if cfg.auto_mode then
    if s.watched_thread = "" then
      ({ s with watched_thread := e.thread_id, watched_last_event_at := e.tnow },
       [.auto_selected e.thread_id])
    else if e.thread_id = s.watched_thread then
      ({ s with watched_last_event_at := e.tnow }, [])
    else if s.watched_last_event_at = 0 ∨
        e.tnow - s.watched_last_event_at > py_max 0 cfg.idle_secs then
      ({ s with watched_thread := e.thread_id, watched_last_event_at := e.tnow,
                rollout_fh_open := false, rollout_path := none,
                last_rollout_scan := 0 },
       [.rebind s.watched_thread e.thread_id cfg.idle_secs])
    else
      (s, [])
  else
    (s, [])

/-- The filter/gate/send section (lines 364-411), run on the state after
`auto_update`.  On success (lines 389-397) the three state-dict keys are set
and `write_state` fully overwrites the state file (`disk`), creating the
directory if missing. -/
def gates_send (cfg : Config) (s : WatcherSt) (e : EventEnv) :
    WatcherSt × Outcome × List LogMsg :=
  if e.thread_id ≠ s.watched_thread then (s, .dropped_thread, [])
  else if e.needs_follow_up ≠ "false" then (s, .dropped_flag, [])
  else if e.turn_id = s.last_sent_turn ∧ e.thread_id = s.last_sent_thread then
    (s, .dropped_dedup, [])
  else if e.pause_file then (s, .skipped_pause, [.skip_pause e.turn_id])
  else if e.pane_pause_file then
    (s, .skipped_pane_pause, [.skip_pane_pause e.turn_id])
  else if cfg.require_pane_active ∧ e.pane_active = false then
    (s, .skipped_inactive, [.skip_inactive e.turn_id])
  else if e.tnow - s.last_send_time < py_max 0 cfg.cooldown_secs then
    (s, .skipped_cooldown, [.skip_cooldown e.turn_id])
  else if e.send_ok then
    let d : StateDict :=
      { s.dict with last_sent_turn := some e.turn_id,
                    last_sent_thread := some e.thread_id,
                    thread_id := some s.watched_thread }
    ({ s with last_send_time := e.tnow, last_sent_turn := e.turn_id,
              last_sent_thread := e.thread_id, dict := d, disk := some d,
              dir_created := true },
     .sent_ok, [.continue_sent e.turn_id e.thread_id])
  else
    (s, .sent_failed, [.send_error e.turn_id e.thread_id e.send_detail])

/-- Result of processing one event. -/
structure StepResult where
  st : WatcherSt
  outcome : Outcome
  logs : List LogMsg
deriving DecidableEq

/-- Processing of one collected event by the loop body (lines 336-411):
the auto-(re)bind section followed by the gate/send section. -/
def process_event (cfg : Config) (s : WatcherSt) (e : EventEnv) : StepResult :=
  ⟨(gates_send cfg (auto_update cfg s e).1 e).1,
   (gates_send cfg (auto_update cfg s e).1 e).2.1,
   (auto_update cfg s e).2 ++ (gates_send cfg (auto_update cfg s e).1 e).2.2⟩

/-! ## `write_state` and its observable intermediate states
(`auto_continue_logwatch.py`, lines 182-184) -/

/-- An on-disk state a concurrent reader of the state file can observe. -/
inductive DiskObs where
  /-- The file truncated to empty, before the new content lands. -/
  | truncated
  /-- The complete serialized record. -/
  | full (d : StateDict)
deriving DecidableEq

/-- The sequence of states the state file passes through during
`write_state` (logwatch lines 182-184): `path.write_text(...)` opens the path
with mode `"w"` — truncating the existing file to empty — and then writes the
full serialized dict.  It is an in-place truncate-then-write, not a
write-to-temp-and-rename, so the truncated intermediate is observable by a
concurrent reader. -/
def write_state_obs (d : StateDict) : List DiskObs :=
  [.truncated, .full d]

/-! ## Window-target resolution (`auto_continue_watchd.py`, lines 164-259)

`resolve_pane_from_window_target` parses the target (`\d+` or
`([^:]+):(\d+)`), lists all panes via tmux, filters the listing rows, and
resolves ambiguity across sessions.  The tmux listing enters the model as the
list of output lines (`listing.splitlines()`); tab-splitting and all
filtering are translated.  The code returns `None` for every failure; the
model distinguishes the observable failure modes (which differ in what is
printed to stderr). -/

/-- One kept row of the `list-panes -a` output (watchd lines 191-214). -/
structure Row where
  session : String
  window_index : String
  pane_id : String
  pane_active : String
  window_active : String
  pane_index : String
deriving DecidableEq

/-- The row-building loop (watchd lines 191-214): skip empty lines and lines
with fewer than 6 tab-separated fields, keep rows with a pane id whose window
index matches (and session matches, when one was requested). -/
def parse_listing_line (req_sess req_window : String) (line : String) :
    Option Row :=
  if line = "" then none
  else
    match (splitChar '\t' line.toList).map (fun l => String.mk l) with
    | sess :: widx :: pid :: pactive :: wactive :: pidx :: _ =>
      if pid = "" ∨ widx ≠ req_window then none
      else if req_sess ≠ "" ∧ sess ≠ req_sess then none
      else some ⟨sess, widx, pid, pactive, wactive, pidx⟩
    | _ => none

def build_rows (req_sess req_window : String) (listing : List String) :
    List Row :=
  listing.filterMap (parse_listing_line req_sess req_window)

/-- The active-session scan (watchd lines 220-229): walk the rows looking at
window-active ones; record the first session name seen, flag a conflict (and
stop) on a differing one. -/
def find_active_session : List Row → String → String × Bool
  | [], acc => (acc, false)
  | r :: rest, acc =>
    if r.window_active ≠ "1" then find_active_session rest acc
    else if acc = "" then find_active_session rest r.session
    else if acc ≠ r.session then (acc, true)
    else find_active_session rest acc

/-- The selection loop (watchd lines 245-254): among rows of the requested
session, remember the first pane as fallback and stop at the first active
pane.  Returns `(selected, fallback)`. -/
def select_loop (req : String) : List Row → String → String × String
  | [], fb => ("", fb)
  | r :: rest, fb =>
    if req ≠ "" ∧ r.session ≠ req then select_loop req rest fb
    else
      let fb2 := if fb = "" then r.pane_id else fb
      if r.pane_active = "1" then (r.pane_id, fb2)
      else select_loop req rest fb2

/-- The observable result of window-target resolution.  All constructors
except `pane` correspond to the Python function returning `None`; they differ
in what is printed. -/
inductive ResolveResult where
  /-- The target matched neither `\d+` nor `([^:]+):(\d+)` (line 176). -/
  | invalid_target
  /-- No listing row matched the window (line 216-217). -/
  | none_found
  /-- Bare window index ambiguous across sessions with no unique active
  session: error plus disambiguation hint printed (lines 233-243). -/
  | ambiguous (sessions : List String)
  /-- The selected pane id (line 259). -/
  | pane (p : String)
  /-- The selected string failed the `is_pane_id` check (line 259). -/
  | not_pane
deriving DecidableEq

/-- The resolution logic on the kept rows (watchd lines 216-259).
`session_seen` is the set of sessions among the rows, so its size is the
length of the deduplicated session list. -/
def resolve_rows (req_sess : String) (rows : List Row) : ResolveResult :=
  if rows = [] then .none_found
  else
    let req2 :=
      if req_sess = "" ∧ (rows.map Row.session).dedup.length > 1 then
        if (find_active_session rows "").1 ≠ "" ∧
            (find_active_session rows "").2 = false then
          some (find_active_session rows "").1
        else
          none
      else some req_sess
    match req2 with
    | none => .ambiguous (rows.map Row.session).dedup
    | some rq =>
      let sl := select_loop rq rows ""
      let sel := if sl.1 = "" then sl.2 else sl.1
      if is_pane_id sel.toList then .pane sel else .not_pane

/-- Target parsing (watchd lines 166-176): a bare window index (all digits),
or `session:window` with a non-empty colon-free session and digit window. -/
def parse_window_target (target : String) : Option (String × String) :=
  if target.toList ≠ [] ∧ target.toList.all Char.isDigit then
    some ("", target)
  else
    match splitChar ':' target.toList with
    | [s, w] =>
      if s ≠ [] ∧ w ≠ [] ∧ w.all Char.isDigit then
        some (String.mk s, String.mk w)
      else none
    | _ => none

/-- `resolve_pane_from_window_target` (watchd lines 164-259) over a given
tmux listing. -/
def resolve_pane_from_window_target (target : String) (listing : List String) :
    ResolveResult :=
  match parse_window_target target with
  | none => .invalid_target
  | some rw => resolve_rows rw.1 (build_rows rw.1 rw.2 listing)

theorem sanitize_char_digit (c : Char) (h : c.isDigit = true) :
    sanitize_char c = c := by
  have halnum : c.isAlphanum = true := by
    simp [Char.isAlphanum, h]
  simp [sanitize_char, halnum]

theorem sanitize_key_digits (l : List Char) (h : ∀ c ∈ l, c.isDigit = true) :
    sanitize_key l = l := by
  induction l with
  | nil => rfl
  | cons c cs ih =>
    simp only [sanitize_key, List.map_cons] at *
    rw [sanitize_char_digit c (h c (by simp)), ih (fun d hd => h d (by simp [hd]))]

/-- C9: for every valid pane id (`%` followed by one or more digits),
`key_to_pane (key_from_pane pane) = pane`. -/
theorem c9_pane_key_round_trip (pane : List Char) (h : is_pane_id pane = true) :
    key_to_pane (key_from_pane pane) = pane := by
  cases pane with
  | nil => simp [is_pane_id] at h
  | cons c rest =>
    simp only [is_pane_id, Bool.and_eq_true, decide_eq_true_eq, ne_eq,
      List.all_eq_true] at h
    obtain ⟨⟨hc, hne⟩, hdig⟩ := h
    subst hc
    have hmap : key_from_pane ('%' :: rest) = '_' :: rest := by
      simp only [key_from_pane, sanitize_key, List.map_cons]
      rw [show sanitize_char '%' = '_' by decide]
      rw [show List.map sanitize_char rest = sanitize_key rest from rfl]
      rw [sanitize_key_digits rest hdig]
    rw [hmap]
    cases rest with
    | nil => exact absurd rfl hne
    | cons d ds =>
      have hd := hdig d (by simp)
      have hne3 : ¬(d = '_') := by
        intro hEq
        subst hEq
        simp [Char.isDigit] at hd
      simp [key_to_pane, List.dropWhile, hne3]

/-- C9 witness: a concrete round trip. -/
theorem c9_pane_key_round_trip_witness :
    key_to_pane (key_from_pane ('%' :: ['4', '2'])) = '%' :: ['4', '2'] :=
  c9_pane_key_round_trip ('%' :: ['4', '2']) (by decide)

/-- C2: at most one watcher per pane at `start`.  A new watcher is spawned
exactly when the PID file is not live and the live-process scan finds nothing;
a live PID file refuses with `already running`; exactly one scanned live
watcher (with a non-live PID file) is adopted; more than one is an error and
nothing is spawned. -/
theorem c2_start_at_most_one_watcher (live : Bool) (pidstr : String)
    (pids : List String) :
    (start_liveness_check live pidstr pids = .spawn ↔ live = false ∧ pids = [])
    ∧ (live = true → start_liveness_check live pidstr pids = .already_running pidstr)
    ∧ (live = false → ∀ p, pids = [p] →
        start_liveness_check live pidstr pids = .adopted p)
    ∧ (live = false → 2 ≤ pids.length →
        start_liveness_check live pidstr pids = .error_multiple pids) := by
  refine ⟨?_, ?_, ?_, ?_⟩
  · constructor
    · intro h
      cases live with
      | true => simp [start_liveness_check] at h
      | false =>
        refine ⟨rfl, ?_⟩
        by_contra hne
        simp only [start_liveness_check, Bool.false_eq_true, if_false, ne_eq,
          hne, not_false_eq_true, if_true] at h
        split at h <;> simp_all
    · rintro ⟨h1, h2⟩
      subst h1; subst h2
      simp [start_liveness_check]
  · intro h; subst h; simp [start_liveness_check]
  · intro h p hp; subst h; subst hp
    simp [start_liveness_check, List.headI]
  · intro h hlen; subst h
    have hne : pids ≠ [] := by
      intro hnil; subst hnil; simp at hlen
    have hlen1 : pids.length ≠ 1 := by omega
    simp [start_liveness_check, hne, hlen1]

/-- C2 witness: concrete instances of each branch. -/
theorem c2_start_at_most_one_watcher_witness :
    start_liveness_check false "" ["11", "12"] = .error_multiple ["11", "12"] :=
  (c2_start_at_most_one_watcher false "" ["11", "12"]).2.2.2 rfl (by decide)

theorem splitChar_ne_nil (sep : Char) (l : List Char) : splitChar sep l ≠ [] := by
  cases l with
  | nil => simp [splitChar]
  | cons c rest =>
    simp only [splitChar]
    split
    · simp
    · split <;> simp

theorem splitChar_append_no_sep (sep : Char) (xs ys : List Char)
    (h : ∀ c ∈ xs, ¬(c = sep)) :
    splitChar sep (xs ++ ys) =
      (xs ++ (splitChar sep ys).headI) :: (splitChar sep ys).tail := by
  induction xs with
  | nil =>
    simp only [List.nil_append]
    cases hys : splitChar sep ys with
    | nil => exact absurd hys (splitChar_ne_nil sep ys)
    | cons l ls => simp
  | cons c xs ih =>
    have hc : ¬(c = sep) := h c (by simp)
    have ih2 := ih (fun d hd => h d (by simp [hd]))
    simp only [List.cons_append, splitChar, hc, if_false, List.append_eq]
    rw [ih2]

theorem splitChar_append_sep (sep : Char) (v : List Char) :
    splitChar sep (v ++ [sep]) = splitChar sep v ++ [[]] := by
  induction v with
  | nil => simp [splitChar]
  | cons c v ih =>
    by_cases hc : c = sep
    · subst hc
      simp only [List.cons_append, splitChar, if_true, List.append_eq, ih]
    · simp only [List.cons_append, splitChar, hc, if_false, List.append_eq]
      rw [ih]
      cases hv : splitChar sep v with
      | nil => exact absurd hv (splitChar_ne_nil sep v)
      | cons l ls => simp

theorem joinNl_splitChar (v : List Char) : joinNl (splitChar '\n' v) = v := by
  induction v with
  | nil => simp [splitChar, joinNl]
  | cons c v ih =>
    by_cases hc : c = '\n'
    · subst hc
      simp only [splitChar, if_true]
      cases hv : splitChar '\n' v with
      | nil => exact absurd hv (splitChar_ne_nil '\n' v)
      | cons l ls =>
        rw [hv] at ih
        simp only [joinNl, ih, List.nil_append]
    · simp only [splitChar, hc, if_false]
      cases hv : splitChar '\n' v with
      | nil => exact absurd hv (splitChar_ne_nil '\n' v)
      | cons l ls =>
        rw [hv] at ih
        cases ls with
        | nil => simp only [joinNl] at ih ⊢; rw [ih]
        | cons y ys => simp only [joinNl] at ih ⊢; rw [List.cons_append, ih]

theorem py_startswith_self_append (p rest : List Char) :
    py_startswith (p ++ rest) p = true := by
  simp [py_startswith, List.take_left]

theorem read_meta_lines_in_value (rest : List (List Char)) (mode : List Char)
    (vls : List (List Char))
    (h : ∀ l ∈ rest, py_startswith l "mode=".toList = false ∧
      py_startswith l "value=".toList = false) :
    read_meta_lines rest mode vls true = (mode, vls ++ rest) := by
  induction rest generalizing vls with
  | nil => simp [read_meta_lines]
  | cons l rest ih =>
    obtain ⟨h1, h2⟩ := h l (by simp)
    simp only [read_meta_lines, h1, h2, Bool.false_eq_true, if_false, if_true]
    rw [ih (vls ++ [l]) (fun x hx => h x (by simp [hx]))]
    simp

theorem univ_newlines_no_cr (l : List Char) (h : ∀ c ∈ l, ¬(c = '\r')) :
    univ_newlines l = l := by
  induction l with
  | nil => rfl
  | cons c rest ih =>
    have hc : ¬(c = '\r') := h c (by simp)
    rw [univ_newlines.eq_def]
    simp only [if_neg hc]
    rw [ih (fun d hd => h d (by simp [hd]))]

/-- C7 (amended): `read_message_meta` after `write_message_meta key mode value`
returns exactly `(mode, value)` — including values with embedded newlines —
provided `value` contains no carriage return, no line of `value` after its
first begins with `mode=` or `value=`, and `value` does not end with a
newline. -/
theorem c7_message_meta_round_trip (m v : List Char)
    (hm : m = "inline".toList ∨ m = "file".toList)
    (hcr : ∀ c ∈ v, ¬(c = '\r'))
    (hlines : ∀ l ∈ (splitChar '\n' v).tail,
      py_startswith l "mode=".toList = false ∧
      py_startswith l "value=".toList = false)
    (hend : v.getLast? ≠ some '\n') :
    read_message_meta (some (write_message_meta m v)) = some (m, v) := by
  have hmn : ∀ c ∈ "mode=".toList ++ m, ¬(c = '\n') := by
    have h1 : ∀ c ∈ "mode=".toList, ¬(c = '\n') := by decide
    have h2 : ∀ c ∈ m, ¬(c = '\n') := by
      rcases hm with hm | hm <;> (subst hm; decide)
    intro c hc
    rcases List.mem_append.mp hc with hc | hc
    · exact h1 c hc
    · exact h2 c hc
  have hcontent : write_message_meta m v =
      ("mode=".toList ++ m) ++ '\n' :: ("value=".toList ++ (v ++ ['\n'])) := rfl
  have hm_cr : ∀ c ∈ m, ¬(c = '\r') := by
    rcases hm with hm | hm <;> (subst hm; decide)
  have hnocr : univ_newlines (write_message_meta m v) = write_message_meta m v := by
    apply univ_newlines_no_cr
    intro c hc
    rw [hcontent] at hc
    rcases List.mem_append.mp hc with hc | hc
    · rcases List.mem_append.mp hc with hc | hc
      · exact (by decide : ∀ c ∈ "mode=".toList, ¬(c = '\r')) c hc
      · exact hm_cr c hc
    · rcases List.mem_cons.mp hc with hc | hc
      · subst hc; decide
      · rcases List.mem_append.mp hc with hc | hc
        · exact (by decide : ∀ c ∈ "value=".toList, ¬(c = '\r')) c hc
        · rcases List.mem_append.mp hc with hc | hc
          · exact hcr c hc
          · rcases List.mem_cons.mp hc with hc | hc
            · subst hc; decide
            · exact absurd hc (List.not_mem_nil c)
  obtain ⟨v0, vtail, hv⟩ : ∃ v0 vtail, splitChar '\n' v = v0 :: vtail := by
    cases hsp : splitChar '\n' v with
    | nil => exact absurd hsp (splitChar_ne_nil '\n' v)
    | cons l ls => exact ⟨l, ls, rfl⟩
  have h2 : splitChar '\n' ("value=".toList ++ (v ++ ['\n'])) =
      ("value=".toList ++ v0) :: (vtail ++ [[]]) := by
    rw [splitChar_append_no_sep '\n' _ _ (by decide), splitChar_append_sep, hv]
    simp
  have hsplit : splitChar '\n' (write_message_meta m v) =
      ("mode=".toList ++ m) :: ("value=".toList ++ v0) :: (vtail ++ [[]]) := by
    rw [hcontent, splitChar_append_no_sep '\n' _ _ hmn]
    have h1 : splitChar '\n' ('\n' :: ("value=".toList ++ (v ++ ['\n']))) =
        [] :: splitChar '\n' ("value=".toList ++ (v ++ ['\n'])) := by
      simp [splitChar]
    rw [h1, h2]
    simp
  have hlines2 : file_lines (write_message_meta m v) =
      ("mode=".toList ++ m) :: ("value=".toList ++ v0) :: vtail := by
    rw [file_lines, hsplit]
    have hshape : ("mode=".toList ++ m) :: ("value=".toList ++ v0) :: (vtail ++ [[]]) =
        (("mode=".toList ++ m) :: ("value=".toList ++ v0) :: vtail) ++ [[]] := by
      simp
    rw [hshape, List.getLast?_concat, List.dropLast_concat]
    simp
  have hsw1 : py_startswith ("mode=".toList ++ m) "mode=".toList = true :=
    py_startswith_self_append _ _
  have hsw2 : py_startswith ("value=".toList ++ v0) "mode=".toList = false := rfl
  have hsw3 : py_startswith ("value=".toList ++ v0) "value=".toList = true :=
    py_startswith_self_append _ _
  have hread : read_meta_lines (file_lines (univ_newlines (write_message_meta m v)))
      [] [] false = (m, v0 :: vtail) := by
    rw [hnocr, hlines2]
    simp only [read_meta_lines, hsw1, if_true, hsw2, Bool.false_eq_true, if_false,
      hsw3]
    have hdrop5 : ("mode=".toList ++ m).drop 5 = m := rfl
    have hdrop6 : ("value=".toList ++ v0).drop 6 = v0 := rfl
    rw [hdrop5, hdrop6]
    rw [read_meta_lines_in_value vtail m [v0] (by rw [hv] at hlines; exact hlines)]
    simp
  simp only [read_message_meta, hread]
  have hjoin : joinNl (v0 :: vtail) = v := by rw [← hv, joinNl_splitChar]
  rw [hjoin]
  rcases hm with hm | hm <;> (subst hm; simp [hend])

/-- C7 witness: round-tripping an inline value with an embedded newline. -/
theorem c7_message_meta_round_trip_witness :
    read_message_meta (some (write_message_meta "inline".toList "a\nb".toList)) =
      some ("inline".toList, "a\nb".toList) :=
  c7_message_meta_round_trip "inline".toList "a\nb".toList (Or.inl rfl)
    (by decide) (by decide) (by decide)

/-- C7 counterexample: the round trip does not hold for *every* message value
as claimed.  An inline value ending in a newline is read back with it
stripped (`"a\n"` comes back as `"a"`), and a value containing a carriage
return is altered by the reader's universal-newline translation (`"a\rb"`
comes back as `"a\nb"`). -/
theorem c7_message_meta_counterexample :
    (read_message_meta (some (write_message_meta "inline".toList "a\n".toList)) =
      some ("inline".toList, "a".toList)
    ∧ read_message_meta (some (write_message_meta "inline".toList "a\n".toList)) ≠
      some ("inline".toList, "a\n".toList))
    ∧ (read_message_meta (some (write_message_meta "inline".toList "a\rb".toList)) =
      some ("inline".toList, "a\nb".toList)
    ∧ read_message_meta (some (write_message_meta "inline".toList "a\rb".toList)) ≠
      some ("inline".toList, "a\rb".toList)) := by
  decide

/-- C10 counterexample: a state file holding valid non-object JSON (here the
array `[]`) is returned as-is by `read_state` — not a dictionary — and the
startup seeding then raises instead of yielding empty dedup fields. -/
theorem c10_read_state_counterexample :
    read_state (some (Json.arr [])) = Json.arr []
    ∧ (read_state (some (Json.arr []))).is_dict = false
    ∧ seed_dedup (read_state (some (Json.arr []))) = .error "AttributeError" :=
  ⟨rfl, rfl, rfl⟩

/-- C10 (amended): `read_state` never raises: a missing, unreadable, or
non-JSON state file yields the empty dict (and the dedup fields then seed as
`("", "")`), while a file that parses as JSON is returned as-is — which is a
dictionary exactly when the file holds a JSON object. -/
theorem c10_read_state_total (j : Json) :
    read_state none = Json.obj []
    ∧ seed_dedup (read_state none) = .ok ("", "")
    ∧ read_state (some j) = j
    ∧ ((read_state (some j)).is_dict = true ↔ j.is_dict = true) :=
  ⟨rfl, rfl, rfl, Iff.rfl⟩

theorem auto_update_keeps_sent (cfg : Config) (s : WatcherSt) (e : EventEnv) :
    (auto_update cfg s e).1.last_sent_turn = s.last_sent_turn
    ∧ (auto_update cfg s e).1.last_sent_thread = s.last_sent_thread
    ∧ (auto_update cfg s e).1.last_send_time = s.last_send_time
    ∧ (auto_update cfg s e).1.dict = s.dict
    ∧ (auto_update cfg s e).1.disk = s.disk := by
  unfold auto_update
  split
  · split
    · exact ⟨rfl, rfl, rfl, rfl, rfl⟩
    · split
      · exact ⟨rfl, rfl, rfl, rfl, rfl⟩
      · split
        · exact ⟨rfl, rfl, rfl, rfl, rfl⟩
        · exact ⟨rfl, rfl, rfl, rfl, rfl⟩
  · exact ⟨rfl, rfl, rfl, rfl, rfl⟩

theorem gates_send_dedup (cfg : Config) (s : WatcherSt) (e : EventEnv)
    (hturn : e.turn_id = s.last_sent_turn)
    (hthread : e.thread_id = s.last_sent_thread) :
    (gates_send cfg s e).2.1.sendAttempted = false := by
  unfold gates_send
  split
  · rfl
  · split
    · rfl
    · split
      · rfl
      · next h => exact absurd (And.intro hturn hthread) h

theorem gates_send_sent_ok (cfg : Config) (s : WatcherSt) (e : EventEnv) :
    (gates_send cfg s e).2.1 = .sent_ok →
    (gates_send cfg s e).1.last_sent_turn = e.turn_id
    ∧ (gates_send cfg s e).1.last_sent_thread = e.thread_id
    ∧ (gates_send cfg s e).1.dict.last_sent_turn = some e.turn_id
    ∧ (gates_send cfg s e).1.dict.last_sent_thread = some e.thread_id
    ∧ (gates_send cfg s e).1.dict.thread_id = some s.watched_thread
    ∧ (gates_send cfg s e).1.dict.rest = s.dict.rest
    ∧ (gates_send cfg s e).1.disk = some (gates_send cfg s e).1.dict
    ∧ (gates_send cfg s e).1.dir_created = true := by
  unfold gates_send
  split
  · intro h; simp at h
  · split
    · intro h; simp at h
    · split
      · intro h; simp at h
      · split
        · intro h; simp at h
        · split
          · intro h; simp at h
          · split
            · intro h; simp at h
            · split
              · intro h; simp at h
              · split
                · intro _; exact ⟨rfl, rfl, rfl, rfl, rfl, rfl, rfl, rfl⟩
                · intro h; simp at h

theorem gates_send_sent_failed (cfg : Config) (s : WatcherSt) (e : EventEnv) :
    (gates_send cfg s e).2.1 = .sent_failed →
    (gates_send cfg s e).1 = s
    ∧ (gates_send cfg s e).2.2 = [.send_error e.turn_id e.thread_id e.send_detail]
    ∧ e.send_ok = false := by
  unfold gates_send
  split
  · intro h; simp at h
  · split
    · intro h; simp at h
    · split
      · intro h; simp at h
      · split
        · intro h; simp at h
        · split
          · intro h; simp at h
          · split
            · intro h; simp at h
            · split
              · intro h; simp at h
              · split
                · intro h; simp at h
                · next hok =>
                  intro _
                  exact ⟨rfl, rfl, by simpa using hok⟩

theorem gates_send_keeps_bind (cfg : Config) (s : WatcherSt) (e : EventEnv) :
    (gates_send cfg s e).1.watched_thread = s.watched_thread
    ∧ (gates_send cfg s e).1.watched_last_event_at = s.watched_last_event_at
    ∧ (gates_send cfg s e).1.rollout_fh_open = s.rollout_fh_open
    ∧ (gates_send cfg s e).1.rollout_path = s.rollout_path
    ∧ (gates_send cfg s e).1.last_rollout_scan = s.last_rollout_scan := by
  unfold gates_send
  split
  · exact ⟨rfl, rfl, rfl, rfl, rfl⟩
  · split
    · exact ⟨rfl, rfl, rfl, rfl, rfl⟩
    · split
      · exact ⟨rfl, rfl, rfl, rfl, rfl⟩
      · split
        · exact ⟨rfl, rfl, rfl, rfl, rfl⟩
        · split
          · exact ⟨rfl, rfl, rfl, rfl, rfl⟩
          · split
            · exact ⟨rfl, rfl, rfl, rfl, rfl⟩
            · split
              · exact ⟨rfl, rfl, rfl, rfl, rfl⟩
              · split
                · exact ⟨rfl, rfl, rfl, rfl, rfl⟩
                · exact ⟨rfl, rfl, rfl, rfl, rfl⟩

/-- C1: dedup/idempotence of sends.  First conjunct: any processed event whose
(turn, thread) equals the recorded last-sent pair triggers no send attempt.
Second conjunct: replaying an event carrying the same (thread, turn) as a
just-successfully-sent one — from either source — triggers no send attempt,
because the successful send recorded that pair. -/
theorem c1_send_dedup_idempotent (cfg : Config) (s : WatcherSt) (e e2 : EventEnv) :
    (e.turn_id = s.last_sent_turn → e.thread_id = s.last_sent_thread →
      (process_event cfg s e).outcome.sendAttempted = false)
    ∧ ((process_event cfg s e).outcome = .sent_ok →
      e2.turn_id = e.turn_id → e2.thread_id = e.thread_id →
      (process_event cfg (process_event cfg s e).st e2).outcome.sendAttempted = false) := by
  constructor
  · intro hturn hthread
    have hpres := auto_update_keeps_sent cfg s e
    exact gates_send_dedup cfg (auto_update cfg s e).1 e
      (by rw [hpres.1]; exact hturn) (by rw [hpres.2.1]; exact hthread)
  · intro hok h1 h2
    have hst := gates_send_sent_ok cfg (auto_update cfg s e).1 e hok
    have hpres2 := auto_update_keeps_sent cfg (process_event cfg s e).st e2
    exact gates_send_dedup cfg (auto_update cfg (process_event cfg s e).st e2).1 e2
      (by rw [hpres2.1]; exact h1.trans hst.1.symm)
      (by rw [hpres2.2.1]; exact h2.trans hst.2.1.symm)

/-- C1 witness: replaying the last-sent (turn, thread) produces no send. -/
theorem c1_send_dedup_idempotent_witness :
    (process_event ⟨true, 20, 1, false⟩
      ⟨"A", 5, "t1", "A", 0, true, none, 0, ⟨none, none, none, []⟩, none, false⟩
      ⟨"A", "t1", "false", 100, false, false, true, true, ""⟩).outcome.sendAttempted
      = false :=
  (c1_send_dedup_idempotent ⟨true, 20, 1, false⟩
      ⟨"A", 5, "t1", "A", 0, true, none, 0, ⟨none, none, none, []⟩, none, false⟩
      ⟨"A", "t1", "false", 100, false, false, true, true, ""⟩
      ⟨"A", "t1", "false", 100, false, false, true, true, ""⟩).1 rfl rfl

/-- C3: pause gates.  For an event that passes the detector (bound thread,
flag `"false"`, not the last-sent pair), an existing global pause sentinel
suppresses the send with only a skip log entry; otherwise an existing
per-pane pause sentinel does the same; with neither sentinel present the
event proceeds to the remaining gates (pane-activity, cooldown, send).  The
sentinels enter the model as existence booleans because the code only calls
`.exists()` — content is never read. -/
theorem c3_pause_gates (cfg : Config) (s : WatcherSt) (e : EventEnv)
    (hthread : e.thread_id = (auto_update cfg s e).1.watched_thread)
    (hflag : e.needs_follow_up = "false")
    (hdedup : ¬(e.turn_id = s.last_sent_turn ∧ e.thread_id = s.last_sent_thread)) :
    (e.pause_file = true →
      (process_event cfg s e).outcome = .skipped_pause
      ∧ (gates_send cfg (auto_update cfg s e).1 e).2.2 = [.skip_pause e.turn_id]
      ∧ (process_event cfg s e).outcome.sendAttempted = false)
    ∧ (e.pause_file = false → e.pane_pause_file = true →
      (process_event cfg s e).outcome = .skipped_pane_pause
      ∧ (gates_send cfg (auto_update cfg s e).1 e).2.2 = [.skip_pane_pause e.turn_id]
      ∧ (process_event cfg s e).outcome.sendAttempted = false)
    ∧ (e.pause_file = false → e.pane_pause_file = false →
      ((process_event cfg s e).outcome = .skipped_inactive
       ∨ (process_event cfg s e).outcome = .skipped_cooldown
       ∨ (process_event cfg s e).outcome = .sent_ok
       ∨ (process_event cfg s e).outcome = .sent_failed)) := by
  have hpres := auto_update_keeps_sent cfg s e
  have hth2 : ¬(e.thread_id ≠ (auto_update cfg s e).1.watched_thread) := by
    simp [hthread]
  have hfl2 : ¬(e.needs_follow_up ≠ "false") := by simp [hflag]
  have hdedup2 : ¬(e.turn_id = (auto_update cfg s e).1.last_sent_turn ∧
      e.thread_id = (auto_update cfg s e).1.last_sent_thread) := by
    rw [hpres.1, hpres.2.1]; exact hdedup
  refine ⟨?_, ?_, ?_⟩
  · intro hp
    simp [process_event, gates_send, Outcome.sendAttempted, hth2, hfl2,
      hdedup2, hp]
  · intro hp hpp
    simp [process_event, gates_send, Outcome.sendAttempted, hth2, hfl2,
      hdedup2, hp, hpp]
  · intro hp hpp
    simp only [process_event, gates_send, hth2, hfl2, hdedup2, hp, hpp,
      Bool.false_eq_true, if_false]
    by_cases hact : cfg.require_pane_active ∧ e.pane_active = false
    · simp [hact]
    · simp only [hact, if_false]
      by_cases hcool : e.tnow - (auto_update cfg s e).1.last_send_time <
          py_max 0 cfg.cooldown_secs
      · simp [hcool]
      · simp only [hcool, if_false]
        by_cases hsend : e.send_ok = true
        · simp [hsend]
        · simp [hsend]

/-- C3 witness: a detector-passing event with the global pause sentinel
present is skipped. -/
theorem c3_pause_gates_witness :
    (process_event ⟨true, 20, 1, false⟩
      ⟨"A", 5, "t1", "A", 0, true, none, 0, ⟨none, none, none, []⟩, none, false⟩
      ⟨"A", "t2", "false", 100, true, false, true, true, ""⟩).outcome
      = .skipped_pause :=
  ((c3_pause_gates ⟨true, 20, 1, false⟩
      ⟨"A", 5, "t1", "A", 0, true, none, 0, ⟨none, none, none, []⟩, none, false⟩
      ⟨"A", "t2", "false", 100, true, false, true, true, ""⟩
      (by decide) rfl (by decide)).1 rfl).1

/-- C4: atomicity on send failure.  When `tmux_send` fails for an event, the
dedup state is untouched — `last_sent_turn`, `last_sent_thread`, the
in-memory state dict and the on-disk state file are unchanged and the
cooldown timestamp `last_send_time` is not advanced — and the failure is
logged with the diagnostic detail; processing of the event ends there (the
loop body contains no retry of `tmux_send` for it). -/
theorem c4_send_failure_atomic (cfg : Config) (s : WatcherSt) (e : EventEnv)
    (h : (process_event cfg s e).outcome = .sent_failed) :
    (process_event cfg s e).st.last_sent_turn = s.last_sent_turn
    ∧ (process_event cfg s e).st.last_sent_thread = s.last_sent_thread
    ∧ (process_event cfg s e).st.dict = s.dict
    ∧ (process_event cfg s e).st.disk = s.disk
    ∧ (process_event cfg s e).st.last_send_time = s.last_send_time
    ∧ (process_event cfg s e).logs =
        (auto_update cfg s e).2 ++ [.send_error e.turn_id e.thread_id e.send_detail]
    ∧ e.send_ok = false := by
  have hpres := auto_update_keeps_sent cfg s e
  have hf := gates_send_sent_failed cfg (auto_update cfg s e).1 e h
  refine ⟨?_, ?_, ?_, ?_, ?_, ?_, hf.2.2⟩
  · show (gates_send cfg (auto_update cfg s e).1 e).1.last_sent_turn = _
    rw [hf.1]; exact hpres.1
  · show (gates_send cfg (auto_update cfg s e).1 e).1.last_sent_thread = _
    rw [hf.1]; exact hpres.2.1
  · show (gates_send cfg (auto_update cfg s e).1 e).1.dict = _
    rw [hf.1]; exact hpres.2.2.2.1
  · show (gates_send cfg (auto_update cfg s e).1 e).1.disk = _
    rw [hf.1]; exact hpres.2.2.2.2
  · show (gates_send cfg (auto_update cfg s e).1 e).1.last_send_time = _
    rw [hf.1]; exact hpres.2.2.1
  · show (auto_update cfg s e).2 ++ (gates_send cfg (auto_update cfg s e).1 e).2.2 = _
    rw [hf.2.1]

/-- C4 witness: a failing send leaves the dedup state unchanged. -/
theorem c4_send_failure_atomic_witness :
    (process_event ⟨true, 20, 1, false⟩
      ⟨"A", 5, "t1", "A", 0, true, none, 0, ⟨none, none, none, []⟩, none, false⟩
      ⟨"A", "t2", "false", 100, false, false, true, false, "boom"⟩).st.last_sent_turn
      = "t1" :=
  (c4_send_failure_atomic ⟨true, 20, 1, false⟩
      ⟨"A", 5, "t1", "A", 0, true, none, 0, ⟨none, none, none, []⟩, none, false⟩
      ⟨"A", "t2", "false", 100, false, false, true, false, "boom"⟩ (by decide)).1

/-- C5: auto-rebind.  In auto mode with a bound thread, an event from a
different thread is ignored outright (state unchanged, nothing logged, no
send) while the bound thread's last observed event is recorded
(`watched_last_event_at ≠ 0`) and no older than the idle threshold; once the
idle threshold is exceeded (or no event was ever recorded) the watcher
rebinds to the new thread, resets the rollout-file tracking (handle closed,
path cleared, scan timer zeroed so the next poll rescans), and logs a rebind
entry.  In explicit (non-auto) mode events from other threads are always
ignored. -/
theorem c5_auto_rebind (cfg : Config) (s : WatcherSt) (e : EventEnv) :
    (cfg.auto_mode = true → s.watched_thread ≠ "" →
      e.thread_id ≠ s.watched_thread → s.watched_last_event_at ≠ 0 →
      e.tnow - s.watched_last_event_at ≤ py_max 0 cfg.idle_secs →
      (process_event cfg s e).st = s
      ∧ (process_event cfg s e).outcome = .dropped_thread
      ∧ (process_event cfg s e).logs = []
      ∧ (process_event cfg s e).outcome.sendAttempted = false)
    ∧ (cfg.auto_mode = true → s.watched_thread ≠ "" →
      e.thread_id ≠ s.watched_thread →
      (s.watched_last_event_at = 0 ∨
        e.tnow - s.watched_last_event_at > py_max 0 cfg.idle_secs) →
      (process_event cfg s e).st.watched_thread = e.thread_id
      ∧ (process_event cfg s e).st.rollout_fh_open = false
      ∧ (process_event cfg s e).st.rollout_path = none
      ∧ (process_event cfg s e).st.last_rollout_scan = 0
      ∧ LogMsg.rebind s.watched_thread e.thread_id cfg.idle_secs
          ∈ (process_event cfg s e).logs)
    ∧ (cfg.auto_mode = false → e.thread_id ≠ s.watched_thread →
      (process_event cfg s e).st = s
      ∧ (process_event cfg s e).outcome = .dropped_thread
      ∧ (process_event cfg s e).logs = []
      ∧ (process_event cfg s e).outcome.sendAttempted = false) := by
  refine ⟨?_, ?_, ?_⟩
  · intro hauto hbound hdiff hlast hidle
    have hrebind : ¬(s.watched_last_event_at = 0 ∨
        e.tnow - s.watched_last_event_at > py_max 0 cfg.idle_secs) := by
      push_neg
      exact ⟨hlast, hidle⟩
    have ha : auto_update cfg s e = (s, []) := by
      simp [auto_update, hauto, hbound, fun h => hdiff h, hrebind]
    simp [process_event, ha, gates_send, hdiff, Outcome.sendAttempted]
  · intro hauto hbound hdiff hrebind
    have ha : auto_update cfg s e =
        ({ s with watched_thread := e.thread_id, watched_last_event_at := e.tnow,
                  rollout_fh_open := false, rollout_path := none,
                  last_rollout_scan := 0 },
         [.rebind s.watched_thread e.thread_id cfg.idle_secs]) := by
      simp [auto_update, hauto, hbound, fun h => hdiff h, hrebind]
    have hkeep := gates_send_keeps_bind cfg (auto_update cfg s e).1 e
    refine ⟨?_, ?_, ?_, ?_, ?_⟩
    · show (gates_send cfg (auto_update cfg s e).1 e).1.watched_thread = _
      rw [hkeep.1, ha]
    · show (gates_send cfg (auto_update cfg s e).1 e).1.rollout_fh_open = _
      rw [hkeep.2.2.1, ha]
    · show (gates_send cfg (auto_update cfg s e).1 e).1.rollout_path = _
      rw [hkeep.2.2.2.1, ha]
    · show (gates_send cfg (auto_update cfg s e).1 e).1.last_rollout_scan = _
      rw [hkeep.2.2.2.2, ha]
    · show LogMsg.rebind s.watched_thread e.thread_id cfg.idle_secs ∈
        (auto_update cfg s e).2 ++ _
      rw [ha]
      simp
  · intro hauto hdiff
    have ha : auto_update cfg s e = (s, []) := by
      simp [auto_update, hauto]
    simp [process_event, ha, gates_send, hdiff, Outcome.sendAttempted]

/-- C5 witness: a different-thread event under the idle threshold is ignored
with the state unchanged. -/
theorem c5_auto_rebind_witness :
    (process_event ⟨true, 20, 1, false⟩
      ⟨"A", 5, "t1", "A", 0, true, none, 0, ⟨none, none, none, []⟩, none, false⟩
      ⟨"B", "t9", "false", 10, false, false, true, true, ""⟩).st
      = ⟨"A", 5, "t1", "A", 0, true, none, 0, ⟨none, none, none, []⟩, none, false⟩ :=
  ((c5_auto_rebind ⟨true, 20, 1, false⟩
      ⟨"A", 5, "t1", "A", 0, true, none, 0, ⟨none, none, none, []⟩, none, false⟩
      ⟨"B", "t9", "false", 10, false, false, true, true, ""⟩).1
    rfl (by decide) (by decide) (by decide) (by decide)).1

/-- C6 counterexample: during `write_state` of a concrete record, a reader
can observe the truncated file, which is not the (or any) full record — the
write is a plain overwrite, not atomic. -/
theorem c6_state_write_counterexample :
    DiskObs.truncated ∈ write_state_obs ⟨some "7", some "abc", some "abc", []⟩
    ∧ DiskObs.truncated ≠ DiskObs.full ⟨some "7", some "abc", some "abc", []⟩ := by
  constructor
  · simp [write_state_obs]
  · intro h
    cases h

/-- C6 (amended): on every successful send the state file is rewritten in
full — a complete overwrite whose record carries the new `last_sent_turn`,
`last_sent_thread` and `thread_id` (other keys preserved), with the
containing directory created if missing — but the rewrite is a
truncate-then-write of the same path rather than an atomic replace. -/
theorem c6_state_write_on_send (cfg : Config) (s : WatcherSt) (e : EventEnv)
    (h : (process_event cfg s e).outcome = .sent_ok) :
    (process_event cfg s e).st.disk = some (process_event cfg s e).st.dict
    ∧ (process_event cfg s e).st.dict.last_sent_turn = some e.turn_id
    ∧ (process_event cfg s e).st.dict.last_sent_thread = some e.thread_id
    ∧ (process_event cfg s e).st.dict.thread_id
        = some (process_event cfg s e).st.watched_thread
    ∧ (process_event cfg s e).st.dict.rest = s.dict.rest
    ∧ (process_event cfg s e).st.dir_created = true := by
  have hpres := auto_update_keeps_sent cfg s e
  have hok := gates_send_sent_ok cfg (auto_update cfg s e).1 e h
  have hkeep := gates_send_keeps_bind cfg (auto_update cfg s e).1 e
  refine ⟨hok.2.2.2.2.2.2.1, hok.2.2.1, hok.2.2.2.1, ?_, ?_, hok.2.2.2.2.2.2.2⟩
  · show (gates_send cfg (auto_update cfg s e).1 e).1.dict.thread_id = _
    rw [hok.2.2.2.2.1]
    exact congrArg some hkeep.1.symm
  · show (gates_send cfg (auto_update cfg s e).1 e).1.dict.rest = _
    rw [hok.2.2.2.2.2.1, congrArg StateDict.rest hpres.2.2.2.1]

/-- C6 witness: a concrete successful send writes the full record. -/
theorem c6_state_write_on_send_witness :
    (process_event ⟨true, 20, 1, false⟩
      ⟨"A", 5, "t1", "A", 0, true, none, 0, ⟨none, none, none, []⟩, none, false⟩
      ⟨"A", "t2", "false", 100, false, false, true, true, ""⟩).st.disk
      = some (process_event ⟨true, 20, 1, false⟩
      ⟨"A", 5, "t1", "A", 0, true, none, 0, ⟨none, none, none, []⟩, none, false⟩
      ⟨"A", "t2", "false", 100, false, false, true, true, ""⟩).st.dict :=
  (c6_state_write_on_send ⟨true, 20, 1, false⟩
      ⟨"A", 5, "t1", "A", 0, true, none, 0, ⟨none, none, none, []⟩, none, false⟩
      ⟨"A", "t2", "false", 100, false, false, true, true, ""⟩ (by decide)).1

theorem select_loop_fb_stable (req : String) :
    ∀ (rows : List Row) (fb : String), fb ≠ "" →
      (select_loop req rows fb).2 = fb := by
  intro rows
  induction rows with
  | nil => intro fb _; rfl
  | cons r rest ih =>
    intro fb hfb
    simp only [select_loop, if_neg hfb]
    split
    · exact ih fb hfb
    · split
      · rfl
      · exact ih fb hfb

theorem select_loop_fb_set (req : String) (_hreq : req ≠ "") :
    ∀ (rows : List Row), (∀ r ∈ rows, r.pane_id ≠ "") →
      (∃ r ∈ rows, r.session = req) → (select_loop req rows "").2 ≠ "" := by
  intro rows
  induction rows with
  | nil =>
    intro _ hex
    obtain ⟨r, hr, _⟩ := hex
    exact absurd hr (List.not_mem_nil r)
  | cons r rest ih =>
    intro hpane hex
    simp only [select_loop]
    split
    · next hskip =>
      obtain ⟨r2, hr2, hsess2⟩ := hex
      rcases List.mem_cons.mp hr2 with hEq | hr2
      · subst hEq
        exact absurd hsess2 hskip.2
      · exact ih (fun x hx => hpane x (by simp [hx])) ⟨r2, hr2, hsess2⟩
    · have hrp : r.pane_id ≠ "" := hpane r (by simp)
      simp only [if_true]
      split
      · exact hrp
      · rw [select_loop_fb_stable req rest r.pane_id hrp]
        exact hrp

theorem select_loop_mem (req : String) (hreq : req ≠ "") :
    ∀ (rows : List Row) (fb : String),
      ((select_loop req rows fb).1 ≠ "" →
        ∃ r ∈ rows, r.session = req ∧ r.pane_id = (select_loop req rows fb).1)
      ∧ ((select_loop req rows fb).2 ≠ fb →
        ∃ r ∈ rows, r.session = req ∧ r.pane_id = (select_loop req rows fb).2) := by
  intro rows
  induction rows with
  | nil =>
    intro fb
    exact ⟨fun h => absurd rfl h, fun h => absurd rfl h⟩
  | cons r rest ih =>
    intro fb
    simp only [select_loop]
    split
    · constructor
      · intro h
        obtain ⟨r2, hr2, hs, hp⟩ := (ih fb).1 h
        exact ⟨r2, by simp [hr2], hs, hp⟩
      · intro h
        obtain ⟨r2, hr2, hs, hp⟩ := (ih fb).2 h
        exact ⟨r2, by simp [hr2], hs, hp⟩
    · next hskip =>
      have hsess : r.session = req := by
        by_contra hc
        exact hskip ⟨hreq, hc⟩
      split
      · constructor
        · intro _
          exact ⟨r, by simp, hsess, rfl⟩
        · intro h
          by_cases hfb : fb = ""
          · subst hfb
            simp only [if_true]
            exact ⟨r, by simp, hsess, rfl⟩
          · simp only [hfb, if_false] at h
            exact absurd rfl h
      · constructor
        · intro h
          by_cases hfb : fb = ""
          · subst hfb
            simp only [if_true, if_pos rfl] at h ⊢
            obtain ⟨r2, hr2, hs, hp⟩ := (ih r.pane_id).1 h
            exact ⟨r2, by simp [hr2], hs, hp⟩
          · simp only [hfb, if_false] at h ⊢
            obtain ⟨r2, hr2, hs, hp⟩ := (ih fb).1 h
            exact ⟨r2, by simp [hr2], hs, hp⟩
        · intro h
          by_cases hfb : fb = ""
          · subst hfb
            simp only [if_true, if_pos rfl] at h ⊢
            by_cases h2 : (select_loop req rest r.pane_id).2 = r.pane_id
            · rw [h2]
              exact ⟨r, by simp, hsess, rfl⟩
            · obtain ⟨r2, hr2, hs, hp⟩ := (ih r.pane_id).2 h2
              exact ⟨r2, by simp [hr2], hs, hp⟩
          · simp only [hfb, if_false] at h ⊢
            obtain ⟨r2, hr2, hs, hp⟩ := (ih fb).2 h
            exact ⟨r2, by simp [hr2], hs, hp⟩

theorem find_active_session_mem :
    ∀ (rows : List Row) (acc : String),
      (find_active_session rows acc).1 = acc ∨
      ∃ r ∈ rows, r.window_active = "1" ∧
        (find_active_session rows acc).1 = r.session := by
  intro rows
  induction rows with
  | nil => intro acc; exact Or.inl rfl
  | cons r rest ih =>
    intro acc
    simp only [find_active_session]
    split
    · rcases ih acc with h | ⟨r2, hr2, ha, hs⟩
      · exact Or.inl h
      · exact Or.inr ⟨r2, by simp [hr2], ha, hs⟩
    · next hact =>
      have hact2 : r.window_active = "1" := by
        by_contra hc
        exact hact hc
      split
      · rcases ih r.session with h | ⟨r2, hr2, ha, hs⟩
        · exact Or.inr ⟨r, by simp, hact2, h⟩
        · exact Or.inr ⟨r2, by simp [hr2], ha, hs⟩
      · split
        · exact Or.inl rfl
        · rcases ih acc with h | ⟨r2, hr2, ha, hs⟩
          · exact Or.inl h
          · exact Or.inr ⟨r2, by simp [hr2], ha, hs⟩

/-- C8: ambiguous bare-window-index resolution.  Over any tmux listing whose
kept rows for the requested window span more than one session: when the rows
do not determine a unique active session (no window-active row, or
window-active rows in different sessions), resolution reports the ambiguity
error — it never returns a pane; when the active-session scan does determine
one session, the selected pane is a pane of that session. -/
theorem c8_window_target_ambiguity (target rw : String) (listing : List String)
    (rows : List Row)
    (hparse : parse_window_target target = some ("", rw))
    (hrows : rows = build_rows "" rw listing)
    (hmulti : (rows.map Row.session).dedup.length > 1) :
    (((find_active_session rows "").1 = "" ∨
        (find_active_session rows "").2 = true) →
      resolve_pane_from_window_target target listing =
        .ambiguous ((rows.map Row.session).dedup))
    ∧ ((find_active_session rows "").1 ≠ "" →
      (find_active_session rows "").2 = false →
      (∀ r ∈ rows, is_pane_id r.pane_id.toList = true) →
      ∃ r ∈ rows, r.session = (find_active_session rows "").1 ∧
        resolve_pane_from_window_target target listing = .pane r.pane_id) := by
  have hne : rows ≠ [] := by
    intro h
    rw [h] at hmulti
    simp at hmulti
  have hres : resolve_pane_from_window_target target listing =
      resolve_rows "" rows := by
    rw [resolve_pane_from_window_target, hparse, hrows]
  constructor
  · intro hamb
    rw [hres]
    have hcond : ¬((find_active_session rows "").1 ≠ "" ∧
        (find_active_session rows "").2 = false) := by
      rcases hamb with h | h
      · intro hc; exact hc.1 h
      · intro hc; rw [h] at hc; exact absurd hc.2 (by simp)
    simp only [resolve_rows, hne, if_false, if_neg hcond, true_and,
      if_pos hmulti]
  · intro hact hconf hall
    have hpane : ∀ r ∈ rows, r.pane_id ≠ "" := by
      intro r hr heq
      have := hall r hr
      rw [heq] at this
      simp [is_pane_id] at this
    have hex : ∃ r ∈ rows, r.session = (find_active_session rows "").1 := by
      rcases find_active_session_mem rows "" with h | ⟨r, hr, _, hs⟩
      · exact absurd h hact
      · exact ⟨r, hr, hs.symm⟩
    have hreq : (find_active_session rows "").1 ≠ "" := hact
    obtain ⟨rsel, hrsel, hssel, hpsel⟩ :
        ∃ r ∈ rows, r.session = (find_active_session rows "").1 ∧
          r.pane_id = (if (select_loop (find_active_session rows "").1 rows "").1 = ""
            then (select_loop (find_active_session rows "").1 rows "").2
            else (select_loop (find_active_session rows "").1 rows "").1) := by
      by_cases hsel : (select_loop (find_active_session rows "").1 rows "").1 = ""
      · have hfb := select_loop_fb_set _ hreq rows hpane hex
        obtain ⟨r2, hr2, hs, hp⟩ := (select_loop_mem _ hreq rows "").2 hfb
        exact ⟨r2, hr2, hs, by rw [if_pos hsel]; exact hp⟩
      · obtain ⟨r2, hr2, hs, hp⟩ := (select_loop_mem _ hreq rows "").1 hsel
        exact ⟨r2, hr2, hs, by rw [if_neg hsel]; exact hp⟩
    refine ⟨rsel, hrsel, hssel, ?_⟩
    rw [hres]
    simp only [resolve_rows, hne, if_false, if_pos (And.intro hact hconf),
      true_and, if_pos hmulti]
    rw [← hpsel, if_pos (hall rsel hrsel)]

/-- C8 witness: window 1 exists in sessions `s1` and `s2`, neither row is
window-active, so resolution errors instead of guessing. -/
theorem c8_window_target_ambiguity_witness :
    resolve_pane_from_window_target "1"
      ["s1\t1\t%1\t1\t0\t0", "s2\t1\t%2\t1\t0\t0"] =
      .ambiguous ["s1", "s2"] :=
  (c8_window_target_ambiguity "1" "1"
      ["s1\t1\t%1\t1\t0\t0", "s2\t1\t%2\t1\t0\t0"]
      [⟨"s1", "1", "%1", "1", "0", "0"⟩, ⟨"s2", "1", "%2", "1", "0", "0"⟩]
      (by decide) (by decide) (by decide)).1 (by decide)

end AutoContinue
